import Mathlib

/-!
Verification development for the CoRe clinical-consultation recording
program (`src/app.py`).  The program's data values are Python/JSON values;
they are embedded here as the inductive type `PyVal`.  Dictionaries are
association lists with unique keys (Python `dict` preserves insertion
order; lookup is by key).  Every operation of the program that a claim
refers to is translated directly from the source:

* `sv`, `calculate_age`, `build_doentes_row`, `build_visitas_row` — the
  row projectors and helpers (app.py lines 349-439);
* `update_doentes_sheet`, `get_or_create_sheet` — the sheet writer
  (app.py lines 138-154);
* `extract_with_gemini` and the review-gate state step — the extraction
  invoker and `main`'s session handling (app.py lines 331-346, 576-588).

Python exceptions that the program catches (KeyError, AttributeError,
TypeError, ValueError, json.JSONDecodeError) are modelled with `Option` /
`Except`: a `none` result of a row builder means the Python code raised
before producing a row.
-/

/-- Embedded Python/JSON value.  Numbers are split into `int` (arbitrary
precision, as in Python) and `float`; a float carries the literal it was
parsed from (Python's float formatting may normalise the literal, e.g.
`1.50` prints as `1.5`; no claim depends on float formatting).  `dict`
entries keep insertion order, as Python dicts do. -/
inductive PyVal where
  | none
  | bool (b : Bool)
  | int (n : Int)
  | float (lit : String)
  | str (s : String)
  | list (items : List PyVal)
  | dict (entries : List (String × PyVal))

/-- First-match lookup in an association list with string keys, the model
of Python `dict` access (parsed dicts have unique keys, so first match is
the only match). -/
def lookupFirst {α : Type} : List (String × α) → String → Option α
  | [], _ => Option.none
  | p :: ps, k => if p.1 = k then some p.2 else lookupFirst ps k

/-- True when a float literal denotes the value zero (all mantissa digits
are `0`).  Literals without any digit (`nan`, `inf`, `-inf`) are not zero. -/
def floatLitIsZero (lit : String) : Bool :=
  let ms := lit.toList.takeWhile (fun c => !(c == 'e') && !(c == 'E'))
  ms.any Char.isDigit && ms.all (fun c => !c.isDigit || c == '0')

/-- Python truthiness (`bool(v)`): `None`, `False`, zero, empty string and
empty containers are falsy. -/
def isTruthy : PyVal → Bool
  | PyVal.none => false
  | PyVal.bool b => b
  | PyVal.int n => !(n == 0)
  | PyVal.float lit => !floatLitIsZero lit
  | PyVal.str s => !s.isEmpty
  | PyVal.list xs => !xs.isEmpty
  | PyVal.dict es => !es.isEmpty

/-- Python `a or b`. -/
def pyOr (a b : PyVal) : PyVal := if isTruthy a then a else b

/-- Python subscript `v[k]` with a string key.  `none` models the raised
exception: KeyError when the key is absent from a dict, TypeError when `v`
is not a dict. -/
def pyItem (v : PyVal) (k : String) : Option PyVal :=
  match v with
  | PyVal.dict es => lookupFirst es k
  | _ => Option.none

/-- View of a value as a Python dict.  `none` models the AttributeError
raised by calling `.get` on a non-dict value. -/
def asDict : PyVal → Option (List (String × PyVal))
  | PyVal.dict es => some es
  | _ => Option.none

/-- Python `d.get(k, dflt)` on a genuine dict: the stored value when the
key is present (even when that value is `None`), otherwise the default. -/
def dget (es : List (String × PyVal)) (k : String) (dflt : PyVal) : PyVal :=
  (lookupFirst es k).getD dflt

def joinComma (xs : List String) : String := String.intercalate ", " xs

/-- Python `repr` of a value (used by `str` on containers).  String
escaping inside the quotes is not modelled; no claim projects a container
value into a cell. -/
def pyRepr : PyVal → String
  | PyVal.none => "None"
  | PyVal.bool true => "True"
  | PyVal.bool false => "False"
  | PyVal.int n => toString n
  | PyVal.float lit => lit
  | PyVal.str s => "\x27" ++ s ++ "\x27"
  | PyVal.list xs => "[" ++ joinComma (xs.attach.map (fun x => pyRepr x.1)) ++ "]"
  | PyVal.dict es =>
      "\x7b" ++ joinComma (es.attach.map (fun p => "\x27" ++ p.1.1 ++ "\x27: " ++ pyRepr p.1.2)) ++ "\x7d"
decreasing_by
  · have h := List.sizeOf_lt_of_mem x.2
    simp only [PyVal.list.sizeOf_spec]
    omega
  · have h := List.sizeOf_lt_of_mem p.2
    obtain ⟨⟨k, v⟩, hm⟩ := p
    simp only [PyVal.dict.sizeOf_spec, Prod.mk.sizeOf_spec] at h ⊢
    omega

/-- Python `str(v)`.  `str` of an int is its decimal form (with a leading
minus for negatives), `str` of a string is the string itself. -/
def pyStr : PyVal → String
  | PyVal.none => "None"
  | PyVal.bool true => "True"
  | PyVal.bool false => "False"
  | PyVal.int n => toString n
  | PyVal.float lit => lit
  | PyVal.str s => s
  | PyVal.list xs => pyRepr (PyVal.list xs)
  | PyVal.dict es => pyRepr (PyVal.dict es)

/-- Source `sv` (app.py 349-357): safe value → string.  `None` maps to the
empty string, `True` to "Sim", `False` to "Não", everything else to its
`str` form. -/
def sv (val : PyVal) : String :=
  match val with
  | PyVal.none => ""
  | PyVal.bool true => "Sim"
  | PyVal.bool false => "Não"
  | v => pyStr v

/-- Calendar date (proleptic Gregorian), the model of `datetime.date`. -/
structure Date where
  year : Nat
  month : Nat
  day : Nat

/-- Gregorian leap-year rule, as implemented by `datetime`. -/
def isLeap (y : Nat) : Bool := y % 4 == 0 && (!(y % 100 == 0) || y % 400 == 0)

def daysInMonth (y m : Nat) : Nat :=
  if m == 2 then (if isLeap y then 29 else 28)
  else if m == 4 || m == 6 || m == 9 || m == 11 then 30
  else 31

/-- Python `str.split(sep)` semantics over characters: `""` gives `[""]`,
separators at the ends give empty groups. -/
def splitChar (sep : Char) : List Char → List (List Char)
  | [] => [[]]
  | c :: cs =>
    let r := splitChar sep cs
    if c = sep then [] :: r
    else
      match r with
      | g :: gs => (c :: g) :: gs
      | [] => [[c]]

def digitsToNat (cs : List Char) : Nat :=
  cs.foldl (fun a c => a * 10 + (c.toNat - '0'.toNat)) 0

/-- Field matcher for `%m` / `%d` in `strptime`: one or two digits whose
value lies within the given bounds ("00" is rejected because the bound is
1). -/
def parseNum12 (cs : List Char) (lo hi : Nat) : Option Nat :=
  if (cs.length == 1 || cs.length == 2) && cs.all Char.isDigit then
    let n := digitsToNat cs
    if lo ≤ n && n ≤ hi then some n else Option.none
  else Option.none

/-- Model of `datetime.strptime(s, "%Y-%m-%d").date()`: `%Y` is exactly
four digits, `%m` and `%d` are one or two digits in range, the whole
string must be consumed, and the day must exist in the month (leap years
included; year 0000 is below `datetime.MINYEAR`). -/
def parseDate (s : String) : Option Date :=
  match splitChar '-' s.toList with
  | [ys, ms, ds] =>
    if ys.length == 4 && ys.all Char.isDigit then
      let y := digitsToNat ys
      match parseNum12 ms 1 12, parseNum12 ds 1 31 with
      | some m, some d =>
        if 1 ≤ y && d ≤ daysInMonth y m then some ⟨y, m, d⟩ else Option.none
      | _, _ => Option.none
    else Option.none
  | _ => Option.none

/-- Age formula of `calculate_age` (app.py 363): year difference minus one
exactly when today's (month, day) pair is lexicographically before the
birth (month, day) pair. -/
def ageAt (dob today : Date) : Int :=
  (today.year : Int) - (dob.year : Int) -
    (if today.month < dob.month || (today.month == dob.month && today.day < dob.day)
     then 1 else 0)

/-- Source `calculate_age` (app.py 359-365), with the projection date as
an explicit parameter (the source reads `date.today()`): `none` models the
caught exception on any parse failure. -/
def calculate_age (dob_str : String) (today : Date) : Option Int :=
  (parseDate dob_str).map (fun dob => ageAt dob today)

/-- Age of the raw `data_nascimento` value: the source computes
`calculate_age(d.get("data_nascimento") or "")`; a truthy non-string value
makes `strptime` raise TypeError, which the `except` also catches. -/
def calculate_age_of (v : PyVal) (today : Date) : Option Int :=
  match pyOr v (PyVal.str "") with
  | PyVal.str s => calculate_age s today
  | _ => Option.none

/-- Stringification of the computed age cell, `sv(age)` where `age` is an
int or `None`. -/
def svAge : Option Int → String
  | Option.none => ""
  | some n => toString n

def pad2 (n : Nat) : String := if n < 10 then "0" ++ toString n else toString n

def pad4 (n : Nat) : String :=
  if n < 10 then "000" ++ toString n
  else if n < 100 then "00" ++ toString n
  else if n < 1000 then "0" ++ toString n
  else toString n

/-- Python `date.isoformat()`: zero-padded `YYYY-MM-DD`. -/
def Date.isoformat (d : Date) : String :=
  pad4 d.year ++ "-" ++ pad2 d.month ++ "-" ++ pad2 d.day

def HEADERS_DOENTES : List String := [
  "N_Processo", "Data_Nascimento", "Idade", "Sexo", "Localidade",
  "Profissao", "Frailty_CFS", "Referenciacao",
  "DM2", "Tabagismo", "HTA", "Dislipidemia", "Obesidade",
  "SAOS", "Sedentarismo", "HxFamiliar_DC",
  "DAP", "DPOC", "Doenca_hepatica", "HBP", "FA", "Outras_comorbilidades",
  "IC_FE_tipo", "IC_Etiologia", "IC_FEVE_atual_pct", "IC_FEVE_trajetoria",
  "DRC_Grau", "DRC_Albuminuria", "DRC_Etiologia",
  "Fenotipo_congestao",
  "POCUS_FE_pct", "POCUS_EE_ratio", "POCUS_LinhasB_N", "POCUS_VCI_mm",
  "RASi", "RASi_farmaco", "RASi_dose",
  "MRA", "MRA_farmaco", "MRA_dose",
  "iSGLT2", "iSGLT2_farmaco", "iSGLT2_dose",
  "GLP1RA", "GLP1RA_farmaco", "GLP1RA_dose",
  "Estatina", "Estatina_farmaco", "Estatina_dose",
  "Diuretico_ansa", "Diuretico_ansa_farmaco", "Diuretico_ansa_dose",
  "Diuretico_tiazida", "Diuretico_tiazida_farmaco", "Diuretico_tiazida_dose",
  "Acetazolamida", "Acetazolamida_farmaco", "Acetazolamida_dose",
  "BetaBloqueante", "BetaBloqueante_farmaco", "BetaBloqueante_dose",
  "Antiagregante", "Antiagregante_farmaco", "Antiagregante_dose",
  "Anticoagulante", "Anticoagulante_farmaco", "Anticoagulante_dose",
  "Ivabradina", "Ivabradina_farmaco", "Ivabradina_dose",
  "Data_ultima_consulta"
]

def HEADERS_VISITAS : List String := [
  "N_Processo", "Data_consulta",
  "Ureia", "Creatinina", "Cistatina_C", "TFGe_CKD_EPI_CrCist",
  "RACu_mg_g", "RPC_mg_g", "Na_urinario",
  "Albumina", "ALT", "AST", "GGT", "Bilirrubina_total",
  "Na", "K", "Cl", "Ca", "P", "Mg",
  "PTH", "Vit_D",
  "NT_proBNP", "BNP", "CA125",
  "Hgb", "Leucocitos", "Plaquetas",
  "HCO3", "Ca_ionizado",
  "Sumario_urina",
  "NYHA", "CCS", "Ortopneia", "Bendopneia", "Edemas_MI",
  "Claudicacao_intermitente", "Palpitacoes",
  "Peso_kg", "Altura_m", "IMC", "TA_sist", "TA_diast", "FC", "SpO2"
]

def HEADERS_EVENTOS : List String := [
  "N_Processo", "Data_evento", "Tipo_evento", "Causa_descricao", "Data_registo"
]

/-- The twelve medication-class keys, in the order `build_doentes_row`
splices them (app.py 405-408), which is also the key order of the
`medicacao` block in the extraction prompt. -/
def medKeys : List String := [
  "rasi", "mra", "isglt2", "glp1ra", "estatina", "diuretico_ansa",
  "diuretico_tiazida", "acetazolamida", "beta_bloqueante",
  "antiagregante", "anticoagulante", "ivabradina"
]

/-- Source `med3` (app.py 378-380): `m = med.get(key) or {}` followed by
the three `sv(m.get(...))` cells.  `none` models the AttributeError when
the class entry is a truthy non-dict. -/
def med3 (med : List (String × PyVal)) (key : String) : Option (List String) :=
  match asDict (pyOr (dget med key PyVal.none) (PyVal.dict [])) with
  | some m =>
      some [sv (dget m "presente" PyVal.none),
            sv (dget m "farmaco" PyVal.none),
            sv (dget m "dose" PyVal.none)]
  | Option.none => Option.none

/-- Effectful map over a list in the `Option` monad (the twelve `med3`
splices of the source, in order; a failure of any splice fails the row). -/
def optMapM {α β : Type} (f : α → Option β) : List α → Option (List β)
  | [] => some []
  | x :: xs =>
    match f x, optMapM f xs with
    | some y, some ys => some (y :: ys)
    | _, _ => Option.none

/-- The 34 scalar cells of the patient-state row that precede the
medication block (app.py 382-403), in source order. -/
def doentesScalarCells (n_processo : String)
    (des frcv co ic drc poc : List (String × PyVal)) (today : Date) : List String :=
  [ n_processo,
    sv (dget des "data_nascimento" PyVal.none),
    svAge (calculate_age_of (dget des "data_nascimento" PyVal.none) today),
    sv (dget des "sexo" PyVal.none), sv (dget des "localidade" PyVal.none),
    sv (dget des "profissao" PyVal.none), sv (dget des "frailty_cfs" PyVal.none),
    sv (dget des "referenciacao" PyVal.none),
    sv (dget frcv "dm2" PyVal.none), sv (dget frcv "tabagismo" PyVal.none),
    sv (dget frcv "hta" PyVal.none), sv (dget frcv "dislipidemia" PyVal.none),
    sv (dget frcv "obesidade" PyVal.none), sv (dget frcv "saos" PyVal.none),
    sv (dget frcv "sedentarismo" PyVal.none), sv (dget frcv "hx_familiar_dc" PyVal.none),
    sv (dget co "dap" PyVal.none), sv (dget co "dpoc" PyVal.none),
    sv (dget co "doenca_hepatica" PyVal.none), sv (dget co "hbp" PyVal.none),
    sv (dget co "fa" PyVal.none), sv (dget co "outras" PyVal.none),
    sv (dget ic "tipo_fe" PyVal.none), sv (dget ic "etiologia" PyVal.none),
    sv (dget ic "feve_atual" PyVal.none), sv (dget ic "feve_trajetoria" PyVal.none),
    sv (dget drc "grau" PyVal.none), sv (dget drc "albuminuria" PyVal.none),
    sv (dget drc "etiologia" PyVal.none),
    sv (dget des "fenotipo_congestao" PyVal.none),
    sv (dget poc "fe_pct" PyVal.none), sv (dget poc "ee_ratio" PyVal.none),
    sv (dget poc "linhas_b_n" PyVal.none), sv (dget poc "vci_mm" PyVal.none) ]

/-- Source `build_doentes_row` (app.py 368-411).  The subscript
`extracted["doente"]` raises KeyError when the key is absent and the
sub-record reads raise AttributeError when a group value is not a dict;
both failure modes collapse to `none` (the save aborts with no row).  The
projection date `today` is the source's `date.today()`. -/
def build_doentes_row (n_processo : String) (extracted : PyVal) (today : Date) :
    Option (List String) := do
  let d ← pyItem extracted "doente"
  let des ← asDict d
  let frcv ← asDict (dget des "frcv" (PyVal.dict []))
  let co ← asDict (dget des "comorbilidades" (PyVal.dict []))
  let ic ← asDict (dget des "ic" (PyVal.dict []))
  let drc ← asDict (dget des "drc" (PyVal.dict []))
  let poc ← asDict (dget des "pocus" (PyVal.dict []))
  let med ← asDict (dget des "medicacao" (PyVal.dict []))
  let medCells ← optMapM (med3 med) medKeys
  pure (doentesScalarCells n_processo des frcv co ic drc poc today
        ++ medCells.flatten ++ [today.isoformat])

/-- The 45 cells of the visit-history row (app.py 418-439), in source
order. -/
def visitasCells (n_processo : String)
    (ves a s ef : List (String × PyVal)) : List String :=
  [ n_processo, sv (dget ves "data_consulta" PyVal.none),
    sv (dget a "ureia" PyVal.none), sv (dget a "creatinina" PyVal.none),
    sv (dget a "cistatina_c" PyVal.none), sv (dget a "tfge_ckd_epi_crcist" PyVal.none),
    sv (dget a "racu" PyVal.none), sv (dget a "rpc" PyVal.none),
    sv (dget a "na_urinario" PyVal.none),
    sv (dget a "albumina" PyVal.none),
    sv (dget a "alt" PyVal.none), sv (dget a "ast" PyVal.none),
    sv (dget a "ggt" PyVal.none), sv (dget a "bilirrubina_total" PyVal.none),
    sv (dget a "na" PyVal.none), sv (dget a "k" PyVal.none),
    sv (dget a "cl" PyVal.none), sv (dget a "ca" PyVal.none),
    sv (dget a "p" PyVal.none), sv (dget a "mg" PyVal.none),
    sv (dget a "pth" PyVal.none), sv (dget a "vit_d" PyVal.none),
    sv (dget a "nt_probnp" PyVal.none), sv (dget a "bnp" PyVal.none),
    sv (dget a "ca125" PyVal.none),
    sv (dget a "hgb" PyVal.none), sv (dget a "leucocitos" PyVal.none),
    sv (dget a "plaquetas" PyVal.none),
    sv (dget a "hco3" PyVal.none), sv (dget a "ca_ionizado" PyVal.none),
    sv (dget a "sumario_urina" PyVal.none),
    sv (dget s "nyha" PyVal.none), sv (dget s "ccs" PyVal.none),
    sv (dget s "ortopneia" PyVal.none), sv (dget s "bendopneia" PyVal.none),
    sv (dget s "edemas_mi" PyVal.none),
    sv (dget s "claudicacao_intermitente" PyVal.none), sv (dget s "palpitacoes" PyVal.none),
    sv (dget ef "peso_kg" PyVal.none), sv (dget ef "altura_m" PyVal.none),
    sv (dget ef "imc" PyVal.none), sv (dget ef "ta_sist" PyVal.none),
    sv (dget ef "ta_diast" PyVal.none), sv (dget ef "fc" PyVal.none),
    sv (dget ef "spo2" PyVal.none) ]

/-- Source `build_visitas_row` (app.py 413-439). -/
def build_visitas_row (n_processo : String) (extracted : PyVal) :
    Option (List String) := do
  let v ← pyItem extracted "visita"
  let ves ← asDict v
  let a ← asDict (dget ves "analises" (PyVal.dict []))
  let s ← asDict (dget ves "sintomas" (PyVal.dict []))
  let ef ← asDict (dget ves "exame_fisico" (PyVal.dict []))
  pure (visitasCells n_processo ves a s ef)

/-- The `med` dict that `build_doentes_row` feeds to `med3`
(`extracted["doente"].get("medicacao", {})`, viewed as a dict). -/
def medOf (e : PyVal) : Option (List (String × PyVal)) :=
  match pyItem e "doente" with
  | some d =>
    match asDict d with
    | some des => asDict (dget des "medicacao" (PyVal.dict []))
    | Option.none => Option.none
  | Option.none => Option.none

/-- The raw `data_nascimento` value read by `build_doentes_row`. -/
def dobOf (e : PyVal) : Option PyVal :=
  match pyItem e "doente" with
  | some d =>
    match asDict d with
    | some des => some (dget des "data_nascimento" PyVal.none)
    | Option.none => Option.none
  | Option.none => Option.none

/-- Shape of one optional sub-record: the value `d.get(k, {})` must itself
be a dict for the source's `.get` reads on it to succeed. -/
def dictOrAbsent (es : List (String × PyVal)) (k : String) : Bool :=
  match dget es k (PyVal.dict []) with
  | PyVal.dict _ => true
  | _ => false

/-- Shape of one medication-class entry: `med.get(key) or {}` must be a
dict, i.e. the entry is absent, falsy (e.g. `null`) or itself a dict. -/
def medEntryOk (med : List (String × PyVal)) (k : String) : Bool :=
  match pyOr (dget med k PyVal.none) (PyVal.dict []) with
  | PyVal.dict _ => true
  | _ => false

/-- Decidable shape condition under which `build_doentes_row` cannot
raise: `extracted["doente"]` is a dict, every group field is absent or a
dict, and every medication-class entry is absent, falsy or a dict. -/
def doentesShapeOk (e : PyVal) : Bool :=
  match pyItem e "doente" with
  | some (PyVal.dict des) =>
    dictOrAbsent des "frcv" && dictOrAbsent des "comorbilidades" &&
    dictOrAbsent des "ic" && dictOrAbsent des "drc" &&
    dictOrAbsent des "pocus" && dictOrAbsent des "medicacao" &&
    (match asDict (dget des "medicacao" (PyVal.dict [])) with
     | some med => medKeys.all (medEntryOk med)
     | Option.none => false)
  | _ => false

/-- Decidable shape condition under which `build_visitas_row` cannot
raise. -/
def visitasShapeOk (e : PyVal) : Bool :=
  match pyItem e "visita" with
  | some (PyVal.dict ves) =>
    dictOrAbsent ves "analises" && dictOrAbsent ves "sintomas" &&
    dictOrAbsent ves "exame_fisico"
  | _ => false

/-- Whitespace characters of Python `str.strip()` / regex `\s` (ASCII
range; unicode whitespace is not modelled — the replies in the claims are
ASCII). -/
def pyWsChar (c : Char) : Bool :=
  c == ' ' || c == '\t' || c == '\n' || c == '\r' || c == '\x0b' || c == '\x0c'

def pyStripChars (cs : List Char) : List Char :=
  ((cs.dropWhile pyWsChar).reverse.dropWhile pyWsChar).reverse

/-- Python `str.strip()`. -/
def pyStripStr (s : String) : String := String.mk (pyStripChars s.toList)

def startsWithChars : List Char → List Char → Bool
  | [], _ => true
  | p :: ps, c :: cs => p == c && startsWithChars ps cs
  | _ :: _, [] => false

/-- Model of `re.sub(r"^``` (?:json)?\s*", "", raw)` (without the space
before the optional group): strip one leading code fence together with an
optional `json` tag and following whitespace. -/
def stripLeadingFence (s : String) : String :=
  let cs := s.toList
  if startsWithChars "```".toList cs then
    let r := cs.drop 3
    let r := if startsWithChars "json".toList r then r.drop 4 else r
    String.mk (r.dropWhile pyWsChar)
  else s

/-- Model of `re.sub(r"\s*```$", "", raw)`: strip one trailing code fence
together with the whitespace immediately before it. -/
def stripTrailingFence (s : String) : String :=
  let rcs := s.toList.reverse
  if startsWithChars "```".toList rcs then
    String.mk ((rcs.drop 3).dropWhile pyWsChar).reverse
  else s

/-- Whitespace skipped by the `json` module between tokens
(space, tab, newline, carriage return). -/
def jsonWs (c : Char) : Bool := c == ' ' || c == '\t' || c == '\n' || c == '\r'

def skipJsonWs : List Char → List Char
  | [] => []
  | c :: cs => if jsonWs c then skipJsonWs cs else c :: cs

/-- Value of one hexadecimal digit (code points 48-57, 97-102, 65-70). -/
def hexDigitVal (c : Char) : Option Nat :=
  let n := c.toNat
  if 48 ≤ n && n ≤ 57 then some (n - 48)
  else if 97 ≤ n && n ≤ 102 then some (n - 87)
  else if 65 ≤ n && n ≤ 70 then some (n - 55)
  else Option.none

/-- JSON string body parser (after the opening quote), with the escape
sequences of the `json` module; unescaped control characters are rejected
(strict mode).  Surrogate-pair combination is not modelled (`Char.ofNat`
maps unpaired surrogate code points to a default); no claim involves
non-ASCII escapes. -/
def parseJString : List Char → List Char → Option (String × List Char)
  | acc, '"' :: rest => some (String.mk acc.reverse, rest)
  | acc, '\\' :: 'u' :: h1 :: h2 :: h3 :: h4 :: rest =>
    (match hexDigitVal h1, hexDigitVal h2, hexDigitVal h3, hexDigitVal h4 with
     | some a, some b, some c, some d =>
       parseJString (Char.ofNat (((a * 16 + b) * 16 + c) * 16 + d) :: acc) rest
     | _, _, _, _ => Option.none)
  | acc, '\\' :: e :: rest =>
    (match e with
     | '"' => parseJString ('"' :: acc) rest
     | '\\' => parseJString ('\\' :: acc) rest
     | '/' => parseJString ('/' :: acc) rest
     | 'b' => parseJString ('\x08' :: acc) rest
     | 'f' => parseJString ('\x0c' :: acc) rest
     | 'n' => parseJString ('\n' :: acc) rest
     | 'r' => parseJString ('\r' :: acc) rest
     | 't' => parseJString ('\t' :: acc) rest
     | _ => Option.none)
  | acc, c :: rest =>
    if c.toNat < 32 then Option.none else parseJString (c :: acc) rest
  | _, [] => Option.none

def takeDigits : List Char → List Char × List Char
  | [] => ([], [])
  | c :: cs =>
    if c.isDigit then
      let (ds, r) := takeDigits cs
      (c :: ds, r)
    else ([], c :: cs)

/-- JSON number parser, following the number regex of the `json` module:
`-?(0|[1-9]\d*)(\.\d+)?([eE][+-]?\d+)?`.  A number without fraction and
exponent becomes a Python `int`; otherwise a float carrying its literal. -/
def parseJNumber (cs : List Char) : Option (PyVal × List Char) :=
  let (negStr, cs1) := match cs with
    | '-' :: r => (['-'], r)
    | _ => (([] : List Char), cs)
  match cs1 with
  | [] => Option.none
  | c :: _ =>
    if !c.isDigit then Option.none
    else
      let (ints, cs2) := if c == '0' then (['0'], cs1.tail) else takeDigits cs1
      let (fracs, cs3) := match cs2 with
        | '.' :: r =>
          let (ds, r2) := takeDigits r
          if ds.isEmpty then (([] : List Char), cs2) else ('.' :: ds, r2)
        | _ => (([] : List Char), cs2)
      let (exps, cs4) := match cs3 with
        | e :: r =>
          if e == 'e' || e == 'E' then
            match r with
            | s :: r2 =>
              if s == '+' || s == '-' then
                let (ds, r3) := takeDigits r2
                if ds.isEmpty then (([] : List Char), cs3) else (e :: s :: ds, r3)
              else
                let (ds, r3) := takeDigits r
                if ds.isEmpty then (([] : List Char), cs3) else (e :: ds, r3)
            | [] => (([] : List Char), cs3)
          else (([] : List Char), cs3)
        | [] => (([] : List Char), cs3)
      if fracs.isEmpty && exps.isEmpty then
        let n : Int := Int.ofNat (digitsToNat ints)
        some (PyVal.int (if negStr.isEmpty then n else -n), cs2)
      else
        some (PyVal.float (String.mk (negStr ++ ints ++ fracs ++ exps)), cs4)

/-- Insertion into a Python dict under construction: a repeated key keeps
its original position but takes the new value (later duplicate keys win,
as in `json.loads`). -/
def dinsert (es : List (String × PyVal)) (k : String) (v : PyVal) :
    List (String × PyVal) :=
  match es with
  | [] => [(k, v)]
  | p :: ps => if p.1 = k then (k, v) :: ps else p :: dinsert ps k v

mutual

/-- Recursive-descent JSON value parser (model of the `json` module's
scanner, including its `NaN`/`Infinity` constants).  The fuel argument
only bounds recursion depth; `json_loads` supplies enough fuel for any
input. -/
def parseJValue : Nat → List Char → Option (PyVal × List Char)
  | 0, _ => Option.none
  | fuel + 1, cs =>
    match cs with
    | [] => Option.none
    | c :: rest =>
      if c == '"' then
        match parseJString [] rest with
        | some (s, r) => some (PyVal.str s, r)
        | Option.none => Option.none
      else if c == '\x7b' then
        let cs1 := skipJsonWs rest
        match cs1 with
        | '\x7d' :: r => some (PyVal.dict [], r)
        | _ => parseJMembers fuel [] cs1
      else if c == '[' then
        let cs1 := skipJsonWs rest
        match cs1 with
        | ']' :: r => some (PyVal.list [], r)
        | _ => parseJItems fuel [] cs1
      else if startsWithChars "true".toList cs then some (PyVal.bool true, cs.drop 4)
      else if startsWithChars "false".toList cs then some (PyVal.bool false, cs.drop 5)
      else if startsWithChars "null".toList cs then some (PyVal.none, cs.drop 4)
      else if startsWithChars "NaN".toList cs then some (PyVal.float "nan", cs.drop 3)
      else if startsWithChars "Infinity".toList cs then some (PyVal.float "inf", cs.drop 8)
      else if startsWithChars "-Infinity".toList cs then some (PyVal.float "-inf", cs.drop 9)
      else if c == '-' || c.isDigit then parseJNumber cs
      else Option.none

/-- Array elements: value, then `,` for the next element or `]` to end. -/
def parseJItems : Nat → List PyVal → List Char → Option (PyVal × List Char)
  | 0, _, _ => Option.none
  | fuel + 1, acc, cs => do
    let (v, cs1) ← parseJValue fuel (skipJsonWs cs)
    match skipJsonWs cs1 with
    | ',' :: r => parseJItems fuel (v :: acc) r
    | ']' :: r => some (PyVal.list (v :: acc).reverse, r)
    | _ => Option.none

/-- Object members: quoted key, `:`, value, then `,` or `}`. -/
def parseJMembers : Nat → List (String × PyVal) → List Char → Option (PyVal × List Char)
  | 0, _, _ => Option.none
  | fuel + 1, acc, cs =>
    match skipJsonWs cs with
    | '"' :: r => do
      let (k, cs1) ← parseJString [] r
      match skipJsonWs cs1 with
      | ':' :: cs2 => do
        let (v, cs3) ← parseJValue fuel (skipJsonWs cs2)
        let acc2 := dinsert acc k v
        match skipJsonWs cs3 with
        | ',' :: r2 => parseJMembers fuel acc2 r2
        | '\x7d' :: r2 => some (PyVal.dict acc2, r2)
        | _ => Option.none
      | _ => Option.none
    | _ => Option.none

end

/-- Model of `json.loads`: parse one value, allowing only whitespace
around it (anything else raises `JSONDecodeError`, modelled by `none`). -/
def json_loads (s : String) : Option PyVal :=
  let cs := s.toList
  match parseJValue (cs.length + 1) (skipJsonWs cs) with
  | some (v, rest) => if (skipJsonWs rest).isEmpty then some v else Option.none
  | Option.none => Option.none

/-- Failure modes of the extraction invoker: `malformedOutput` is the
`json.JSONDecodeError` branch of `main`, `serviceError` the generic
exception branch (external call failed). -/
inductive ExtractionFailure where
  | malformedOutput
  | serviceError
deriving DecidableEq

/-- Source `extract_with_gemini` (app.py 331-346) from the point the
external reply is available: strip the reply, remove an optional code
fence, and parse it as JSON.  The external call itself is out of scope and
enters as an `Except`: a `serviceResult` error models `generate_content`
raising (timeout, auth, quota). -/
def extract_with_gemini (serviceResult : Except Unit String) :
    Except ExtractionFailure PyVal :=
  match serviceResult with
  | Except.error _ => Except.error ExtractionFailure.serviceError
  | Except.ok text =>
    let raw := pyStripStr text
    let raw := stripLeadingFence raw
    let raw := stripTrailingFence raw
    match json_loads raw with
    | some v => Except.ok v
    | Option.none => Except.error ExtractionFailure.malformedOutput

/-- Review-gate session state held in `st.session_state`: `ready_to_save`
plus the pending record and its identifier.  The Idle state of the spec is
`ready_to_save = false` with no stored record. -/
structure Session where
  ready_to_save : Bool
  extracted : Option PyVal
  n_processo : Option String

def idleSession : Session := ⟨false, Option.none, Option.none⟩

/-- The "Processar Consulta" step of `main` (app.py 576-588): on a
successful extraction the record and identifier are stored and
`ready_to_save` is set; on either failure the handler reports the error
and returns, leaving the session state untouched. -/
def processConsulta (st : Session) (n : String) (serviceResult : Except Unit String) :
    Session × Option ExtractionFailure :=
  match extract_with_gemini serviceResult with
  | Except.ok e => ({ ready_to_save := true, extracted := some e, n_processo := some n }, Option.none)
  | Except.error f => (st, some f)

/-- Source `get_or_create_sheet` (app.py 138-144) over a spreadsheet
modelled as a name-keyed list of worksheets (each a list of rows): return
the existing worksheet, or create one whose only row is the header.  The
result pairs the (possibly extended) spreadsheet with the worksheet
handle. -/
def get_or_create_sheet (ss : List (String × List (List String)))
    (name : String) (headers : List String) :
    List (String × List (List String)) × List (List String) :=
  match lookupFirst ss name with
  | some ws => (ss, ws)
  | Option.none => (ss ++ [(name, [headers])], [headers])

def insertAt {α : Type} (l : List α) (i : Nat) (a : α) : List α :=
  l.take i ++ a :: l.drop i

/-- Source `update_doentes_sheet` (app.py 146-154): read the key column
(first cell of every row, header included), and if the identifier occurs,
delete the first matching row and insert the new row at the same index,
otherwise append. -/
def update_doentes_sheet (sheet : List (List String)) (n_processo : String)
    (row : List String) : List (List String) :=
  let col_a := sheet.map (fun r => r.headD "")
  if col_a.contains n_processo then
    let i := col_a.findIdx (fun s => s == n_processo)
    insertAt (sheet.eraseIdx i) i row
  else sheet ++ [row]

/-- Replace the first row whose key cell equals the identifier, else
append — the specification-level reading of `update_doentes_sheet`,
proved equal to it below. -/
def replaceFirst (sheet : List (List String)) (n : String) (row : List String) :
    List (List String) :=
  match sheet with
  | [] => [row]
  | r :: rs => if r.headD "" = n then row :: rs else r :: replaceFirst rs n row

/-- Upsert on an association list keyed by identifier: replace the first
entry with the key, else append. -/
def upsertAL (al : List (String × List String)) (n : String) (row : List String) :
    List (String × List String) :=
  match al with
  | [] => [(n, row)]
  | p :: ps => if p.1 = n then (n, row) :: ps else p :: upsertAL ps n row

/-- Fold a sequence of `update_doentes_sheet` calls over a table. -/
def applyCalls (init : List (List String)) (calls : List (String × List String)) :
    List (List String) :=
  calls.foldl (fun s c => update_doentes_sheet s c.1 c.2) init

/-- Abstract table contents after a sequence of upserts: one entry per
distinct identifier, in order of first use, holding the most recent row. -/
def lastRows (calls : List (String × List String)) : List (String × List String) :=
  calls.foldl (fun al c => upsertAL al c.1 c.2) []

/-- The row argument of the most recent call for an identifier. -/
def lastCallRow (calls : List (String × List String)) (n : String) :
    Option (List String) :=
  match calls with
  | [] => Option.none
  | c :: cs =>
    match lastCallRow cs n with
    | some r => some r
    | Option.none => if c.1 = n then some c.2 else Option.none

theorem optMapM_length {α β : Type} (f : α → Option β) :
    ∀ (xs : List α) (ys : List β), optMapM f xs = some ys → ys.length = xs.length := by
  intro xs
  induction xs with
  | nil =>
    intro ys h
    simp only [optMapM, Option.some.injEq] at h
    subst h; rfl
  | cons x xs ih =>
    intro ys h
    simp only [optMapM] at h
    cases hf : f x with
    | none => rw [hf] at h; cases h
    | some y =>
      rw [hf] at h
      cases hm : optMapM f xs with
      | none => rw [hm] at h; cases h
      | some ys' =>
        rw [hm] at h
        cases h
        simp [ih ys' hm]

theorem optMapM_get {α β : Type} (f : α → Option β) :
    ∀ (xs : List α) (ys : List β), optMapM f xs = some ys →
      ∀ (i : Nat) (hx : i < xs.length) (hy : i < ys.length),
        f (xs.get ⟨i, hx⟩) = some (ys.get ⟨i, hy⟩) := by
  intro xs
  induction xs with
  | nil => intro ys h i hx; exact absurd hx (by simp)
  | cons x xs ih =>
    intro ys h i hx hy
    simp only [optMapM] at h
    cases hf : f x with
    | none => rw [hf] at h; cases h
    | some y =>
      rw [hf] at h
      cases hm : optMapM f xs with
      | none => rw [hm] at h; cases h
      | some ys' =>
        rw [hm] at h
        cases h
        cases i with
        | zero => simpa using hf
        | succ j => exact ih ys' hm j (by simpa using hx) (by simpa using hy)

theorem optMapM_mem {α β : Type} (f : α → Option β) :
    ∀ (xs : List α) (ys : List β), optMapM f xs = some ys →
      ∀ y ∈ ys, ∃ x, x ∈ xs ∧ f x = some y := by
  intro xs
  induction xs with
  | nil =>
    intro ys h y hy
    simp only [optMapM, Option.some.injEq] at h
    subst h; cases hy
  | cons x xs ih =>
    intro ys h y hy
    simp only [optMapM] at h
    cases hf : f x with
    | none => rw [hf] at h; cases h
    | some y' =>
      rw [hf] at h
      cases hm : optMapM f xs with
      | none => rw [hm] at h; cases h
      | some ys' =>
        rw [hm] at h
        cases h
        rcases List.mem_cons.1 hy with h1 | h2
        · exact ⟨x, by simp, by rw [hf, h1]⟩
        · obtain ⟨x', hx', hfx'⟩ := ih ys' hm y h2
          exact ⟨x', by simp [hx'], hfx'⟩

theorem optMapM_isSome {α β : Type} (f : α → Option β) :
    ∀ (xs : List α), (∀ x ∈ xs, ∃ y, f x = some y) → ∃ ys, optMapM f xs = some ys := by
  intro xs
  induction xs with
  | nil => intro _; exact ⟨[], rfl⟩
  | cons x xs ih =>
    intro h
    obtain ⟨y, hy⟩ := h x (by simp)
    obtain ⟨ys, hys⟩ := ih (fun x' hx' => h x' (by simp [hx']))
    exact ⟨y :: ys, by simp [optMapM, hy, hys]⟩

theorem med3_length (med : List (String × PyVal)) (key : String) (cells : List String)
    (h : med3 med key = some cells) : cells.length = 3 := by
  unfold med3 at h
  cases hd : asDict (pyOr (dget med key PyVal.none) (PyVal.dict [])) with
  | none => rw [hd] at h; cases h
  | some m => rw [hd] at h; cases h; rfl

theorem flatten_length_three (bs : List (List String)) (h : ∀ b ∈ bs, b.length = 3) :
    bs.flatten.length = 3 * bs.length := by
  induction bs with
  | nil => rfl
  | cons b rest ih =>
    simp only [List.flatten_cons, List.length_append, List.length_cons]
    rw [h b (by simp), ih (fun x hx => h x (by simp [hx]))]
    ring

theorem flatten_drop_take (bs : List (List String)) (tail : List String) :
    ∀ (i : Nat) (h : i < bs.length), (∀ b ∈ bs, b.length = 3) →
      ((bs.flatten ++ tail).drop (3 * i)).take 3 = bs.get ⟨i, h⟩ := by
  induction bs with
  | nil => intro i h; exact absurd h (by simp)
  | cons b rest ih =>
    intro i h hlen
    cases i with
    | zero =>
      have hb := hlen b (by simp)
      simp only [List.flatten_cons, List.append_assoc, Nat.mul_zero, List.drop_zero, List.get]
      rw [← hb]
      exact List.take_left b (rest.flatten ++ tail)
    | succ j =>
      have h3 : 3 * (j + 1) = b.length + 3 * j := by rw [hlen b (by simp)]; ring
      simp only [List.flatten_cons, List.append_assoc]
      rw [h3, List.drop_append]
      exact ih j (by simpa using h) (fun x hx => hlen x (by simp [hx]))

theorem build_doentes_shape (n : String) (e : PyVal) (t : Date) (row : List String)
    (h : build_doentes_row n e t = some row) :
    ∃ d des frcv co ic drc poc med blocks,
      pyItem e "doente" = some d ∧ asDict d = some des ∧
      asDict (dget des "frcv" (PyVal.dict [])) = some frcv ∧
      asDict (dget des "comorbilidades" (PyVal.dict [])) = some co ∧
      asDict (dget des "ic" (PyVal.dict [])) = some ic ∧
      asDict (dget des "drc" (PyVal.dict [])) = some drc ∧
      asDict (dget des "pocus" (PyVal.dict [])) = some poc ∧
      asDict (dget des "medicacao" (PyVal.dict [])) = some med ∧
      optMapM (med3 med) medKeys = some blocks ∧
      row = doentesScalarCells n des frcv co ic drc poc t ++ blocks.flatten ++ [t.isoformat] := by
  simp only [build_doentes_row, bind, Option.bind_eq_some, Option.pure_def,
    Option.some.injEq] at h
  obtain ⟨d, hd, des, hdes, frcv, hfrcv, co, hco, ic, hic, drc, hdrc, poc, hpoc,
    med, hmed, blocks, hblocks, hrow⟩ := h
  exact ⟨d, des, frcv, co, ic, drc, poc, med, blocks, hd, hdes, hfrcv, hco, hic,
    hdrc, hpoc, hmed, hblocks, hrow.symm⟩

theorem build_visitas_shape (n : String) (e : PyVal) (row : List String)
    (h : build_visitas_row n e = some row) :
    ∃ v ves a s ef,
      pyItem e "visita" = some v ∧ asDict v = some ves ∧
      asDict (dget ves "analises" (PyVal.dict [])) = some a ∧
      asDict (dget ves "sintomas" (PyVal.dict [])) = some s ∧
      asDict (dget ves "exame_fisico" (PyVal.dict [])) = some ef ∧
      row = visitasCells n ves a s ef := by
  simp only [build_visitas_row, bind, Option.bind_eq_some, Option.pure_def,
    Option.some.injEq] at h
  obtain ⟨v, hv, ves, hves, a, ha, s, hs, ef, hef, hrow⟩ := h
  exact ⟨v, ves, a, s, ef, hv, hves, ha, hs, hef, hrow.symm⟩

theorem dictOrAbsent_asDict (es : List (String × PyVal)) (k : String)
    (h : dictOrAbsent es k = true) :
    ∃ ms, asDict (dget es k (PyVal.dict [])) = some ms := by
  unfold dictOrAbsent at h
  split at h
  · next ms heq => exact ⟨ms, by rw [heq]; rfl⟩
  · exact Bool.noConfusion h

theorem medEntryOk_med3 (med : List (String × PyVal)) (k : String)
    (h : medEntryOk med k = true) : ∃ cells, med3 med k = some cells := by
  unfold medEntryOk at h
  split at h
  · next ms heq =>
    refine ⟨[sv (dget ms "presente" PyVal.none), sv (dget ms "farmaco" PyVal.none),
      sv (dget ms "dose" PyVal.none)], ?_⟩
    unfold med3
    rw [heq]
    rfl
  · exact Bool.noConfusion h

theorem build_doentes_isSome (n : String) (e : PyVal) (t : Date)
    (h : doentesShapeOk e = true) : ∃ row, build_doentes_row n e t = some row := by
  unfold doentesShapeOk at h
  split at h
  · next des hpe =>
    simp only [Bool.and_eq_true] at h
    obtain ⟨⟨⟨⟨⟨⟨h1, h2⟩, h3⟩, h4⟩, h5⟩, h6⟩, h7⟩ := h
    obtain ⟨frcv, hfrcv⟩ := dictOrAbsent_asDict _ _ h1
    obtain ⟨co, hco⟩ := dictOrAbsent_asDict _ _ h2
    obtain ⟨ic, hic⟩ := dictOrAbsent_asDict _ _ h3
    obtain ⟨drc, hdrc⟩ := dictOrAbsent_asDict _ _ h4
    obtain ⟨poc, hpoc⟩ := dictOrAbsent_asDict _ _ h5
    obtain ⟨med, hmed⟩ := dictOrAbsent_asDict _ _ h6
    rw [hmed] at h7
    have hall := List.all_eq_true.1 h7
    obtain ⟨blocks, hblocks⟩ :=
      optMapM_isSome (med3 med) medKeys (fun k hk => medEntryOk_med3 med k (hall k hk))
    have hdes : asDict (PyVal.dict des) = some des := rfl
    refine ⟨doentesScalarCells n des frcv co ic drc poc t ++ blocks.flatten
      ++ [t.isoformat], ?_⟩
    simp [build_doentes_row, hpe, hdes, hfrcv, hco, hic, hdrc, hpoc, hmed, hblocks]
  · exact Bool.noConfusion h

theorem build_visitas_isSome (n : String) (e : PyVal)
    (h : visitasShapeOk e = true) : ∃ row, build_visitas_row n e = some row := by
  unfold visitasShapeOk at h
  split at h
  · next ves hpe =>
    simp only [Bool.and_eq_true] at h
    obtain ⟨⟨h1, h2⟩, h3⟩ := h
    obtain ⟨a, ha⟩ := dictOrAbsent_asDict _ _ h1
    obtain ⟨s, hs⟩ := dictOrAbsent_asDict _ _ h2
    obtain ⟨ef, hef⟩ := dictOrAbsent_asDict _ _ h3
    have hves : asDict (PyVal.dict ves) = some ves := rfl
    refine ⟨visitasCells n ves a s ef, ?_⟩
    simp [build_visitas_row, hpe, hves, ha, hs, hef]
  · exact Bool.noConfusion h

theorem build_doentes_length (n : String) (e : PyVal) (t : Date) (row : List String)
    (h : build_doentes_row n e t = some row) : row.length = HEADERS_DOENTES.length := by
  obtain ⟨d, des, frcv, co, ic, drc, poc, med, blocks, hd, hdes, hf, hc, hi, hdr,
    hp, hm, hb, hrow⟩ := build_doentes_shape n e t row h
  have hlen3 : ∀ b ∈ blocks, b.length = 3 := by
    intro b hbmem
    obtain ⟨k, _, hk3⟩ := optMapM_mem _ medKeys blocks hb b hbmem
    exact med3_length med k b hk3
  have hblen : blocks.length = medKeys.length := optMapM_length _ medKeys blocks hb
  have hscalar : (doentesScalarCells n des frcv co ic drc poc t).length = 34 := rfl
  subst hrow
  simp only [List.length_append, hscalar, flatten_length_three blocks hlen3, hblen,
    List.length_singleton]
  decide

theorem build_visitas_length (n : String) (e : PyVal) (row : List String)
    (h : build_visitas_row n e = some row) : row.length = HEADERS_VISITAS.length := by
  obtain ⟨v, ves, a, s, ef, hv, hves, ha, hs, hef, hrow⟩ := build_visitas_shape n e row h
  subst hrow
  rfl

theorem update_eq_replaceFirst (n : String) (row : List String) :
    ∀ sheet, update_doentes_sheet sheet n row = replaceFirst sheet n row := by
  intro sheet
  induction sheet with
  | nil => rfl
  | cons r rs ih =>
    simp only [update_doentes_sheet, replaceFirst, List.map_cons, List.contains_cons,
      List.findIdx_cons]
    by_cases h : r.headD "" = n
    · have hb1 : (n == r.headD "") = true := by rw [h]; exact beq_self_eq_true n
      have hb2 : (r.headD "" == n) = true := by rw [h]; exact beq_self_eq_true n
      rw [hb1]
      simp only [Bool.true_or, if_true, if_pos h, hb2, cond_true]
      simp [insertAt, List.eraseIdx]
    · have hb1 : (n == r.headD "") = false := beq_false_of_ne (Ne.symm h)
      have hb2 : (r.headD "" == n) = false := beq_false_of_ne h
      rw [hb1]
      simp only [Bool.false_or, hb2, cond_false, if_neg h]
      by_cases hmem : ((List.map (fun r => r.headD "") rs).contains n) = true
      · rw [if_pos hmem]
        have ih2 := ih
        simp only [update_doentes_sheet] at ih2
        rw [if_pos hmem] at ih2
        rw [← ih2]
        simp [insertAt, List.eraseIdx]
      · rw [if_neg hmem]
        have ih2 := ih
        simp only [update_doentes_sheet] at ih2
        rw [if_neg hmem] at ih2
        rw [← ih2]
        simp

theorem replaceFirst_map_snd (n : String) (row : List String) :
    ∀ (al : List (String × List String)), (∀ p ∈ al, p.2.headD "" = p.1) →
      replaceFirst (al.map Prod.snd) n row = (upsertAL al n row).map Prod.snd := by
  intro al
  induction al with
  | nil => intro _; rfl
  | cons p ps ih =>
    intro hal
    have hp := hal p (by simp)
    simp only [List.map_cons, replaceFirst, upsertAL]
    by_cases h : p.1 = n
    · rw [if_pos (hp.trans h), if_pos h]
      simp
    · rw [if_neg (by rw [hp]; exact h), if_neg h]
      simp only [List.map_cons, List.cons.injEq, true_and]
      exact ih (fun q hq => hal q (by simp [hq]))

theorem replaceFirst_header_cons (H : List String) (al : List (String × List String))
    (n : String) (row : List String) (hH : H.headD "" ≠ n)
    (hal : ∀ p ∈ al, p.2.headD "" = p.1) :
    replaceFirst (H :: al.map Prod.snd) n row = H :: (upsertAL al n row).map Prod.snd := by
  simp only [replaceFirst, if_neg hH]
  rw [replaceFirst_map_snd n row al hal]

theorem goodAL_upsert (al : List (String × List String)) (n : String) (row : List String)
    (hal : ∀ p ∈ al, p.2.headD "" = p.1) (hrow : row.headD "" = n) :
    ∀ p ∈ upsertAL al n row, p.2.headD "" = p.1 := by
  induction al with
  | nil => intro p hp; simp only [upsertAL, List.mem_singleton] at hp; subst hp; exact hrow
  | cons q qs ih =>
    intro p hp
    simp only [upsertAL] at hp
    by_cases h : q.1 = n
    · rw [if_pos h] at hp
      rcases List.mem_cons.1 hp with h1 | h2
      · subst h1; exact hrow
      · exact hal p (by simp [h2])
    · rw [if_neg h] at hp
      rcases List.mem_cons.1 hp with h1 | h2
      · subst h1; exact hal p (by simp)
      · exact ih (fun q' hq' => hal q' (by simp [hq'])) p h2

theorem applyCalls_good :
    ∀ (calls : List (String × List String)) (al : List (String × List String)),
      (∀ p ∈ al, p.2.headD "" = p.1) →
      (∀ c ∈ calls, c.2.headD "" = c.1 ∧ c.1 ≠ "N_Processo") →
      applyCalls (HEADERS_DOENTES :: al.map Prod.snd) calls
        = HEADERS_DOENTES :: (calls.foldl (fun a c => upsertAL a c.1 c.2) al).map Prod.snd := by
  intro calls
  induction calls with
  | nil => intro al _ _; rfl
  | cons c cs ih =>
    intro al hal hc
    have hc1 := hc c (by simp)
    have hH : HEADERS_DOENTES.headD "" ≠ c.1 := by
      simp only [HEADERS_DOENTES, List.headD_cons]
      exact fun hcon => hc1.2 hcon.symm
    have step : update_doentes_sheet (HEADERS_DOENTES :: al.map Prod.snd) c.1 c.2
        = HEADERS_DOENTES :: (upsertAL al c.1 c.2).map Prod.snd := by
      rw [update_eq_replaceFirst, replaceFirst_header_cons _ _ _ _ hH hal]
    show applyCalls (update_doentes_sheet (HEADERS_DOENTES :: al.map Prod.snd) c.1 c.2) cs = _
    rw [step, ih (upsertAL al c.1 c.2) (goodAL_upsert al c.1 c.2 hal hc1.1)
      (fun d hd => hc d (by simp [hd]))]
    rfl

theorem mem_keys_upsertAL (al : List (String × List String)) (n k : String)
    (row : List String) :
    k ∈ (upsertAL al n row).map Prod.fst ↔ k ∈ al.map Prod.fst ∨ k = n := by
  induction al with
  | nil => simp [upsertAL]
  | cons q qs ih =>
    simp only [upsertAL]
    by_cases h : q.1 = n
    · rw [if_pos h]
      subst h
      simp only [List.map_cons, List.mem_cons]
      tauto
    · rw [if_neg h]
      simp only [List.map_cons, List.mem_cons, ih]
      tauto

theorem upsertAL_keys_nodup (al : List (String × List String)) (n : String)
    (row : List String) (h : (al.map Prod.fst).Nodup) :
    ((upsertAL al n row).map Prod.fst).Nodup := by
  induction al with
  | nil => simp [upsertAL]
  | cons q qs ih =>
    simp only [List.map_cons, List.nodup_cons] at h
    simp only [upsertAL]
    by_cases hq : q.1 = n
    · rw [if_pos hq]
      simp only [List.map_cons, List.nodup_cons]
      exact ⟨hq ▸ h.1, h.2⟩
    · rw [if_neg hq]
      simp only [List.map_cons, List.nodup_cons]
      refine ⟨?_, ih h.2⟩
      intro hmem
      rcases (mem_keys_upsertAL qs n q.1 row).1 hmem with h1 | h2
      · exact h.1 h1
      · exact hq h2

theorem lastRows_aux_nodup :
    ∀ (calls : List (String × List String)) (al : List (String × List String)),
      (al.map Prod.fst).Nodup →
      ((calls.foldl (fun a c => upsertAL a c.1 c.2) al).map Prod.fst).Nodup := by
  intro calls
  induction calls with
  | nil => intro al h; exact h
  | cons c cs ih =>
    intro al h
    exact ih (upsertAL al c.1 c.2) (upsertAL_keys_nodup al c.1 c.2 h)

theorem lastRows_nodup (calls : List (String × List String)) :
    ((lastRows calls).map Prod.fst).Nodup :=
  lastRows_aux_nodup calls [] (by simp)

theorem lookup_upsertAL (al : List (String × List String)) (n k : String)
    (row : List String) :
    lookupFirst (upsertAL al n row) k = if k = n then some row else lookupFirst al k := by
  induction al with
  | nil =>
    simp only [upsertAL, lookupFirst]
    by_cases h : k = n
    · rw [if_pos h, if_pos h.symm]
    · rw [if_neg h, if_neg (fun hc : n = k => h hc.symm)]
  | cons q qs ih =>
    simp only [upsertAL]
    by_cases hq : q.1 = n
    · rw [if_pos hq]
      simp only [lookupFirst]
      by_cases hk : k = n
      · rw [if_pos hk.symm, if_pos hk]
      · rw [if_neg (fun hc : n = k => hk hc.symm), if_neg hk,
          if_neg (fun hc : q.1 = k => hk (hc.symm.trans hq))]
    · rw [if_neg hq]
      simp only [lookupFirst]
      by_cases hqk : q.1 = k
      · have hkn : k ≠ n := fun hkn => hq (hqk.trans hkn)
        rw [if_pos hqk, if_neg hkn, if_pos hqk]
      · rw [if_neg hqk, ih]
        by_cases hkn : k = n
        · rw [if_pos hkn, if_pos hkn]
        · rw [if_neg hkn, if_neg hkn, if_neg hqk]

theorem lookup_foldl_upsert :
    ∀ (calls : List (String × List String)) (al : List (String × List String)) (n : String),
      lookupFirst (calls.foldl (fun a c => upsertAL a c.1 c.2) al) n
        = match lastCallRow calls n with
          | some r => some r
          | Option.none => lookupFirst al n := by
  intro calls
  induction calls with
  | nil => intro al n; rfl
  | cons c cs ih =>
    intro al n
    show lookupFirst (cs.foldl _ (upsertAL al c.1 c.2)) n = _
    rw [ih (upsertAL al c.1 c.2) n]
    simp only [lastCallRow]
    cases hcs : lastCallRow cs n with
    | some r => rfl
    | none =>
      by_cases h : c.1 = n
      · rw [if_pos h, lookup_upsertAL, if_pos h.symm]
      · rw [if_neg h, lookup_upsertAL, if_neg (fun hc : n = c.1 => h hc.symm)]

theorem lookup_lastRows (calls : List (String × List String)) (n : String) :
    lookupFirst (lastRows calls) n = lastCallRow calls n := by
  have h := lookup_foldl_upsert calls [] n
  simp only [lastRows]
  rw [h]
  cases hc : lastCallRow calls n <;> rfl

theorem lookupFirst_isSome_iff {α : Type} :
    ∀ (al : List (String × α)) (k : String),
      (lookupFirst al k).isSome = true ↔ k ∈ al.map Prod.fst := by
  intro al
  induction al with
  | nil => intro k; simp [lookupFirst]
  | cons p ps ih =>
    intro k
    simp only [lookupFirst, List.map_cons, List.mem_cons]
    by_cases h : p.1 = k
    · rw [if_pos h]
      constructor
      · intro _; exact Or.inl h.symm
      · intro _; rfl
    · rw [if_neg h, ih]
      constructor
      · exact Or.inr
      · rintro (h1 | h2)
        · exact absurd h1.symm h
        · exact h2

theorem lastCallRow_isSome_iff :
    ∀ (calls : List (String × List String)) (n : String),
      (lastCallRow calls n).isSome = true ↔ n ∈ calls.map Prod.fst := by
  intro calls
  induction calls with
  | nil => intro n; simp [lastCallRow]
  | cons c cs ih =>
    intro n
    simp only [lastCallRow, List.map_cons, List.mem_cons]
    cases hcs : lastCallRow cs n with
    | some r =>
      simp only [Option.isSome_some, true_iff]
      exact Or.inr ((ih n).1 (by rw [hcs]; rfl))
    | none =>
      by_cases h : c.1 = n
      · rw [if_pos h]
        simp only [Option.isSome_some, true_iff]
        exact Or.inl h.symm
      · rw [if_neg h]
        constructor
        · intro hfalse; cases hfalse
        · rintro (h1 | h2)
          · exact absurd h1.symm h
          · have := (ih n).2 h2
            rw [hcs] at this
            cases this

theorem replaceFirst_prefix (n : String) (row : List String) :
    ∀ (pre rest : List (List String)), (∀ r ∈ pre, r.headD "" ≠ n) →
      replaceFirst (pre ++ rest) n row = pre ++ replaceFirst rest n row := by
  intro pre
  induction pre with
  | nil => intro rest _; rfl
  | cons r rs ih =>
    intro rest h
    simp only [List.cons_append, replaceFirst, if_neg (h r (by simp))]
    rw [show rs.append rest = rs ++ rest from rfl, ih rest (fun q hq => h q (by simp [hq]))]

theorem lookupFirst_append_right {α : Type} (x : α) :
    ∀ (ss : List (String × α)) (k : String), lookupFirst ss k = Option.none →
      lookupFirst (ss ++ [(k, x)]) k = some x := by
  intro ss
  induction ss with
  | nil => intro k _; simp [lookupFirst]
  | cons p ps ih =>
    intro k h
    simp only [lookupFirst, List.cons_append] at h ⊢
    by_cases hp : p.1 = k
    · rw [if_pos hp] at h; cases h
    · rw [if_neg hp] at h ⊢
      exact ih k h

/-- C1 counterexample: taken literally over "any combination of
present/absent/null fields", the quantification includes a record whose
top-level "doente" field is absent.  On such a record
`build_doentes_row` raises KeyError (modelled by `none`), so no
patient-state row of any length is produced. -/
theorem C1_counterexample :
    build_doentes_row "123456" (PyVal.dict [("visita", PyVal.dict [])]) ⟨2024, 1, 2⟩
      = Option.none
    ∧ ¬ ∃ row, build_doentes_row "123456" (PyVal.dict [("visita", PyVal.dict [])])
        ⟨2024, 1, 2⟩ = some row ∧ row.length = HEADERS_DOENTES.length := by
  refine ⟨rfl, ?_⟩
  rintro ⟨row, hrow, -⟩
  exact Option.noConfusion
    (show (Option.none : Option (List String)) = some row from hrow)

/-- C1 (amended): for every record whose top-level "doente" and "visita"
fields are present mappings, whose group fields are each absent or a
mapping, and whose medication-class entries are absent, falsy or
mappings (`doentesShapeOk` / `visitasShapeOk`), both projectors succeed
and produce rows whose lengths equal the corresponding header lengths
(71 and 45). -/
theorem C1_row_lengths (n : String) (e : PyVal) (t : Date)
    (hd : doentesShapeOk e = true) (hv : visitasShapeOk e = true) :
    ∃ rd rv, build_doentes_row n e t = some rd
      ∧ rd.length = HEADERS_DOENTES.length
      ∧ build_visitas_row n e = some rv
      ∧ rv.length = HEADERS_VISITAS.length := by
  obtain ⟨rd, hrd⟩ := build_doentes_isSome n e t hd
  obtain ⟨rv, hrv⟩ := build_visitas_isSome n e hv
  exact ⟨rd, rv, hrd, build_doentes_length n e t rd hrd, hrv,
    build_visitas_length n e rv hrv⟩

/-- C1 witness: the all-null canonical record (both top-level mappings
present and empty) satisfies both shape conditions, and the rows have the
header lengths. -/
theorem C1_witness :
    ∃ rd rv, build_doentes_row "123456"
        (PyVal.dict [("doente", PyVal.dict []), ("visita", PyVal.dict [])]) ⟨2024, 1, 2⟩
        = some rd
      ∧ rd.length = HEADERS_DOENTES.length
      ∧ build_visitas_row "123456"
          (PyVal.dict [("doente", PyVal.dict []), ("visita", PyVal.dict [])])
        = some rv
      ∧ rv.length = HEADERS_VISITAS.length :=
  C1_row_lengths "123456"
    (PyVal.dict [("doente", PyVal.dict []), ("visita", PyVal.dict [])]) ⟨2024, 1, 2⟩
    (by decide) (by decide)

/-- C2: each of the twelve medication classes contributes exactly three
consecutive cells (presence, agent, dose) at the fixed offsets
34 + 3·i, …, 34 + 3·i + 2 of the patient-state row, in the fixed class
order of `medKeys`; a class entry that is absent, null, or an all-null
triple projects as three empty cells; and the cells depend on the
medication mapping only through keyed lookup, never on insertion order. -/
theorem C2_med_block :
    (∀ (med : List (String × PyVal)) (k : String),
        (lookupFirst med k = Option.none ∨ lookupFirst med k = some PyVal.none ∨
         lookupFirst med k = some (PyVal.dict
           [("presente", PyVal.none), ("farmaco", PyVal.none), ("dose", PyVal.none)])) →
        med3 med k = some ["", "", ""])
    ∧ (∀ (med med' : List (String × PyVal)) (k : String),
        lookupFirst med k = lookupFirst med' k → med3 med k = med3 med' k)
    ∧ (∀ (med m : List (String × PyVal)) (k : String),
        lookupFirst med k = some (PyVal.dict m) → isTruthy (PyVal.dict m) = true →
        med3 med k = some [sv (dget m "presente" PyVal.none),
                           sv (dget m "farmaco" PyVal.none),
                           sv (dget m "dose" PyVal.none)])
    ∧ (∀ (n : String) (e : PyVal) (t : Date) (row : List String),
        build_doentes_row n e t = some row →
        ∀ (i : Nat) (hi : i < medKeys.length),
          ∃ med cells, medOf e = some med
            ∧ med3 med (medKeys.get ⟨i, hi⟩) = some cells
            ∧ (row.drop (34 + 3 * i)).take 3 = cells) := by
  refine ⟨?_, ?_, ?_, ?_⟩
  · intro med k h
    rcases h with h | h | h <;> (unfold med3 dget; rw [h]; rfl)
  · intro med med' k h
    unfold med3 dget
    rw [h]
  · intro med m k h htruthy
    unfold med3 dget pyOr
    rw [h]
    simp only [Option.getD_some, htruthy, if_true]
    rfl
  · intro n e t row h i hi
    obtain ⟨d, des, frcv, co, ic, drc, poc, med, blocks, hd, hdes, hf, hc, hi2, hdr,
      hp, hm, hb, hrow⟩ := build_doentes_shape n e t row h
    have hmedOf : medOf e = some med := by
      simp [medOf, hd, hdes, hm]
    have hblen : blocks.length = medKeys.length := optMapM_length _ medKeys blocks hb
    have hib : i < blocks.length := by rw [hblen]; exact hi
    have hlen3 : ∀ b ∈ blocks, b.length = 3 := by
      intro b hbmem
      obtain ⟨k, _, hk3⟩ := optMapM_mem _ medKeys blocks hb b hbmem
      exact med3_length med k b hk3
    refine ⟨med, blocks.get ⟨i, hib⟩, hmedOf, optMapM_get _ medKeys blocks hb i hi hib, ?_⟩
    subst hrow
    rw [List.append_assoc,
      show (34 : Nat) + 3 * i
        = (doentesScalarCells n des frcv co ic drc poc t).length + 3 * i from rfl,
      List.drop_append]
    exact flatten_drop_take blocks [t.isoformat] i hib hlen3

/-- Row produced by `build_doentes_row` on the all-null canonical record,
used to witness the medication-block positions. -/
def c2ExampleRow : List String :=
  (build_doentes_row "123456"
    (PyVal.dict [("doente", PyVal.dict []), ("visita", PyVal.dict [])]) ⟨2024, 1, 2⟩).getD []

/-- C2 witness: the "rasi" class of the all-null record projects as three
empty cells sitting at offsets 34-36 of the concrete row. -/
theorem C2_witness :
    med3 [] "rasi" = some ["", "", ""]
    ∧ (∃ med cells,
        medOf (PyVal.dict [("doente", PyVal.dict []), ("visita", PyVal.dict [])]) = some med
        ∧ med3 med (medKeys.get ⟨0, by decide⟩) = some cells
        ∧ (c2ExampleRow.drop (34 + 3 * 0)).take 3 = cells) :=
  ⟨C2_med_block.1 [] "rasi" (Or.inl rfl),
   C2_med_block.2.2.2 "123456"
     (PyVal.dict [("doente", PyVal.dict []), ("visita", PyVal.dict [])]) ⟨2024, 1, 2⟩
     c2ExampleRow (by rfl) 0 (by decide)⟩

/-- C3 counterexample: the claim quantifies over arbitrary row arguments,
but the scan matches on the row's first cell, not on the identifier the
row was saved under.  Upserting twice under identifier "a" with rows whose
first cell is "b" appends twice: the final table has two rows besides the
header although only one identifier was ever used (the claim demands
header + exactly one row, i.e. length 2). -/
theorem C3_counterexample :
    applyCalls [HEADERS_DOENTES] [("a", ["b", "x"]), ("a", ["b", "y"])]
      = [HEADERS_DOENTES, ["b", "x"], ["b", "y"]]
    ∧ (applyCalls [HEADERS_DOENTES] [("a", ["b", "x"]), ("a", ["b", "y"])]).length ≠ 2 := by
  refine ⟨by decide, by decide⟩

/-- C3 (amended): for any call sequence on the header-only table in which
every row carries its identifier as its first cell and no identifier is
empty or equal to the header title "N_Processo", the table equals the
header followed by exactly one row per distinct identifier ever used, in
first-use order (`lastRows`); the row stored for an identifier is the row
of its most recent call; and each single step replaces the first matching
row in place (`replaceFirst`), appending when no row matches. -/
theorem C3_upsert_invariant (calls : List (String × List String))
    (hcalls : ∀ c ∈ calls, c.2.headD "" = c.1 ∧ c.1 ≠ "" ∧ c.1 ≠ "N_Processo") :
    applyCalls [HEADERS_DOENTES] calls
        = HEADERS_DOENTES :: (lastRows calls).map Prod.snd
    ∧ ((lastRows calls).map Prod.fst).Nodup
    ∧ (∀ n, lookupFirst (lastRows calls) n = lastCallRow calls n)
    ∧ (∀ n, n ∈ (lastRows calls).map Prod.fst ↔ n ∈ calls.map Prod.fst)
    ∧ (∀ sheet n row, update_doentes_sheet sheet n row = replaceFirst sheet n row) := by
  refine ⟨?_, lastRows_nodup calls, fun n => lookup_lastRows calls n, ?_,
    fun s n r => update_eq_replaceFirst n r s⟩
  · have h := applyCalls_good calls []
      (by simp) (fun c hc => ⟨(hcalls c hc).1, (hcalls c hc).2.2⟩)
    simpa [lastRows] using h
  · intro n
    rw [← lookupFirst_isSome_iff, lookup_lastRows, lastCallRow_isSome_iff]

/-- Concrete call sequence for the C3 witness. -/
def c3calls : List (String × List String) :=
  [("1", ["1", "a"]), ("2", ["2", "b"]), ("1", ["1", "c"])]

/-- C3 witness: three well-formed calls (the first identifier updated
twice) produce the header plus one row per identifier, holding the most
recent content. -/
theorem C3_witness :
    applyCalls [HEADERS_DOENTES] c3calls = HEADERS_DOENTES :: (lastRows c3calls).map Prod.snd
    ∧ lookupFirst (lastRows c3calls) "1" = lastCallRow c3calls "1" :=
  ⟨(C3_upsert_invariant c3calls (by decide)).1,
   (C3_upsert_invariant c3calls (by decide)).2.2.1 "1"⟩

/-- C4: the leaf stringification `sv` maps null to the empty string, true
to "Sim", false to "Não"; the two boolean tokens are distinct and
non-empty, so `sv` restricted to booleans is injective; ints and strings
keep their native string form with no unit suffix. -/
theorem C4_sv_spec :
    sv PyVal.none = ""
    ∧ sv (PyVal.bool true) = "Sim"
    ∧ sv (PyVal.bool false) = "Não"
    ∧ sv (PyVal.bool true) ≠ ""
    ∧ sv (PyVal.bool false) ≠ ""
    ∧ sv (PyVal.bool true) ≠ sv (PyVal.bool false)
    ∧ (∀ n : Int, sv (PyVal.int n) = toString n)
    ∧ (∀ s : String, sv (PyVal.str s) = s)
    ∧ (∀ b₁ b₂ : Bool, sv (PyVal.bool b₁) = sv (PyVal.bool b₂) → b₁ = b₂) := by
  refine ⟨rfl, rfl, rfl, by decide, by decide, by decide, fun n => rfl, fun s => rfl, ?_⟩
  intro b₁ b₂ h
  cases b₁ <;> cases b₂ <;> first | rfl | (exfalso; exact absurd h (by decide))

/-- C4 witness: boolean injectivity applied at true/true, together with a
concrete native-form instance. -/
theorem C4_witness :
    sv (PyVal.int (-3)) = toString (-3 : Int) ∧ true = true :=
  ⟨C4_sv_spec.2.2.2.2.2.2.1 (-3), C4_sv_spec.2.2.2.2.2.2.2.2 true true rfl⟩

/-- C5: age is computed at projection time by calendar-aware subtraction —
birth 1960-03-10 gives 63 at reference 2024-03-09 and 64 at 2024-03-10;
a missing/null birth value or any string the parser rejects yields `none`,
which the age cell renders as the empty string; and in every successfully
built patient-state row, cell 2 is exactly the stringified age of the raw
`data_nascimento` value at the projection date, with the rest of the row
intact (full header length). -/
theorem C5_age :
    calculate_age "1960-03-10" ⟨2024, 3, 9⟩ = some 63
    ∧ calculate_age "1960-03-10" ⟨2024, 3, 10⟩ = some 64
    ∧ (∀ t : Date, calculate_age_of PyVal.none t = Option.none)
    ∧ (∀ (t : Date) (s : String), parseDate s = Option.none →
        calculate_age_of (PyVal.str s) t = Option.none)
    ∧ svAge Option.none = ""
    ∧ (∀ (n : String) (e : PyVal) (t : Date) (row : List String),
        build_doentes_row n e t = some row →
        ∃ dv, dobOf e = some dv
          ∧ row.get? 2 = some (svAge (calculate_age_of dv t))
          ∧ row.length = HEADERS_DOENTES.length) := by
  refine ⟨by decide, by decide, fun t => rfl, ?_, rfl, ?_⟩
  · intro t s h
    unfold calculate_age_of pyOr
    by_cases hs : isTruthy (PyVal.str s)
    · rw [if_pos hs]
      show calculate_age s t = Option.none
      unfold calculate_age
      rw [h]
      rfl
    · rw [if_neg hs]
      rfl
  · intro n e t row h
    obtain ⟨d, des, frcv, co, ic, drc, poc, med, blocks, hd, hdes, hf, hc, hi, hdr,
      hp, hm, hb, hrow⟩ := build_doentes_shape n e t row h
    refine ⟨dget des "data_nascimento" PyVal.none, ?_, ?_,
      build_doentes_length n e t row h⟩
    · simp [dobOf, hd, hdes]
    · subst hrow
      have hlen : (doentesScalarCells n des frcv co ic drc poc t).length = 34 := rfl
      rw [List.append_assoc, List.get?_append (by rw [hlen]; omega)]
      rfl

/-- Canonical record with a malformed (non-ISO) birth-date string. -/
def c5BadRecord : PyVal :=
  PyVal.dict [("doente", PyVal.dict [("data_nascimento", PyVal.str "31-12-1999")]),
              ("visita", PyVal.dict [])]

/-- Patient-state row built from `c5BadRecord`. -/
def c5BadRow : List String :=
  (build_doentes_row "p1" c5BadRecord ⟨2024, 5, 1⟩).getD []

/-- C5 witness: the malformed birth date "31-12-1999" fails to parse, the
row still builds at full length, and its age cell is the empty string. -/
theorem C5_witness :
    calculate_age_of (PyVal.str "31-12-1999") ⟨2024, 5, 1⟩ = Option.none
    ∧ (∃ dv, dobOf c5BadRecord = some dv
        ∧ c5BadRow.get? 2 = some (svAge (calculate_age_of dv ⟨2024, 5, 1⟩))
        ∧ c5BadRow.length = HEADERS_DOENTES.length) :=
  ⟨C5_age.2.2.2.1 ⟨2024, 5, 1⟩ "31-12-1999" (by rfl),
   C5_age.2.2.2.2.2 "p1" c5BadRecord ⟨2024, 5, 1⟩ c5BadRow (by rfl)⟩

/-- C6: the reply "not json" (no code fence to strip) fails JSON parsing,
so the invoker fails with the malformed-output error — a constructor
distinct from the service error — and processing it from the Idle session
leaves the session exactly Idle: no pending record is stored. -/
theorem C6_malformed_reply :
    extract_with_gemini (Except.ok "not json")
        = Except.error ExtractionFailure.malformedOutput
    ∧ ExtractionFailure.malformedOutput ≠ ExtractionFailure.serviceError
    ∧ processConsulta idleSession "123456" (Except.ok "not json")
        = (idleSession, some ExtractionFailure.malformedOutput) := by
  refine ⟨rfl, by decide, rfl⟩

/-- C7: `get_or_create_sheet` is idempotent — a second call with the same
name and header returns the spreadsheet unchanged; when the sheet exists
the spreadsheet is untouched and the existing sheet (with its original
header row) is returned; when absent, exactly one sheet holding exactly
the given header row is created. -/
theorem C7_ensure_table (ss : List (String × List (List String))) (name : String)
    (headers : List String) :
    (get_or_create_sheet (get_or_create_sheet ss name headers).1 name headers).1
      = (get_or_create_sheet ss name headers).1
    ∧ (lookupFirst ss name = Option.none →
        (get_or_create_sheet ss name headers).1 = ss ++ [(name, [headers])])
    ∧ (∀ ws, lookupFirst ss name = some ws →
        (get_or_create_sheet ss name headers).1 = ss
        ∧ (get_or_create_sheet ss name headers).2 = ws) := by
  refine ⟨?_, ?_, ?_⟩
  · cases h : lookupFirst ss name with
    | some ws => simp [get_or_create_sheet, h]
    | none =>
      have h2 : lookupFirst (ss ++ [(name, [headers])]) name = some [headers] :=
        lookupFirst_append_right [headers] ss name h
      simp [get_or_create_sheet, h, h2]
  · intro h
    simp [get_or_create_sheet, h]
  · intro ws h
    simp [get_or_create_sheet, h]

/-- C7 witness: provisioning the patient-state sheet in an empty
spreadsheet creates it with its header, and a second call is a no-op. -/
theorem C7_witness :
    (get_or_create_sheet (get_or_create_sheet [] "Doentes" HEADERS_DOENTES).1
        "Doentes" HEADERS_DOENTES).1
      = (get_or_create_sheet [] "Doentes" HEADERS_DOENTES).1
    ∧ (get_or_create_sheet [] "Doentes" HEADERS_DOENTES).1
      = [] ++ [("Doentes", [HEADERS_DOENTES])] :=
  ⟨(C7_ensure_table [] "Doentes" HEADERS_DOENTES).1,
   (C7_ensure_table [] "Doentes" HEADERS_DOENTES).2.1 rfl⟩

/-- C8 counterexample: the projectors are not total over records with an
absent top-level key — `build_visitas_row` subscripts
`extracted["visita"]`, so a record without "visita" reaches the
missing-key error branch (KeyError, modelled by `none`) and no row with
empty cells is produced. -/
theorem C8_counterexample :
    build_visitas_row "123456" (PyVal.dict [("doente", PyVal.dict [])]) = Option.none
    ∧ ¬ ∃ row, build_visitas_row "123456" (PyVal.dict [("doente", PyVal.dict [])])
        = some row := by
  refine ⟨rfl, ?_⟩
  rintro ⟨row, hrow⟩
  exact Option.noConfusion
    (show (Option.none : Option (List String)) = some row from hrow)

/-- C8 (amended): when the top-level "doente"/"visita" values are mappings
and each group sub-record is absent or a mapping, both projectors are
total; below the top level, an absent leaf reads as the null default
(`dget` of a missing key is null, which `sv` projects as the empty
string), and a medication class that is absent behaves exactly like an
explicitly null one: three empty cells.  A missing or null top-level key
or a null group sub-record instead raises (no row), as the counterexample
shows. -/
theorem C8_projector_totality :
    (∀ (n : String) (e : PyVal) (t : Date), doentesShapeOk e = true →
        (build_doentes_row n e t).isSome = true)
    ∧ (∀ (n : String) (e : PyVal), visitasShapeOk e = true →
        (build_visitas_row n e).isSome = true)
    ∧ (∀ (es : List (String × PyVal)) (k : String),
        lookupFirst es k = Option.none → dget es k PyVal.none = PyVal.none)
    ∧ sv PyVal.none = ""
    ∧ (∀ (med : List (String × PyVal)) (k : String),
        lookupFirst med k = Option.none ∨ lookupFirst med k = some PyVal.none →
        med3 med k = some ["", "", ""]) := by
  refine ⟨?_, ?_, ?_, rfl, ?_⟩
  · intro n e t h
    obtain ⟨row, hrow⟩ := build_doentes_isSome n e t h
    rw [hrow]
    rfl
  · intro n e h
    obtain ⟨row, hrow⟩ := build_visitas_isSome n e h
    rw [hrow]
    rfl
  · intro es k h
    unfold dget
    rw [h]
    rfl
  · intro med k h
    rcases h with h | h <;> (unfold med3 dget; rw [h]; rfl)

/-- C8 witness: the all-null record is total for the patient projector,
and an explicitly null "rasi" entry projects as three empty cells just as
an absent one does. -/
theorem C8_witness :
    (build_doentes_row "123456"
        (PyVal.dict [("doente", PyVal.dict []), ("visita", PyVal.dict [])])
        ⟨2024, 1, 2⟩).isSome = true
    ∧ med3 [("rasi", PyVal.none)] "rasi" = some ["", "", ""] :=
  ⟨C8_projector_totality.1 "123456"
     (PyVal.dict [("doente", PyVal.dict []), ("visita", PyVal.dict [])]) ⟨2024, 1, 2⟩
     (by decide),
   C8_projector_totality.2.2.2.2 [("rasi", PyVal.none)] "rasi" (Or.inr rfl)⟩

/-- C9: the key-column scan of `update_doentes_sheet` includes the header
cell — upserting under the identifier "N_Processo" matches position 0, so
the header row itself is deleted and the new row inserted in its place;
nothing is appended. -/
theorem C9_header_scan (rest : List (List String)) (row : List String) :
    update_doentes_sheet (HEADERS_DOENTES :: rest) "N_Processo" row = row :: rest := by
  rw [update_eq_replaceFirst]
  simp [replaceFirst, HEADERS_DOENTES]

/-- C10: when the key column contains several rows matching the
identifier, `update_doentes_sheet` replaces only the first one (lowest
index) and leaves every later duplicate in place: the one-row-per-
identifier property is preserved from states that satisfy it but never
restored from states that violate it. -/
theorem C10_duplicate_rows (pre : List (List String)) (r1 : List String)
    (rest : List (List String)) (n : String) (row : List String)
    (hpre : ∀ r ∈ pre, r.headD "" ≠ n) (hr1 : r1.headD "" = n) :
    update_doentes_sheet (pre ++ r1 :: rest) n row = pre ++ row :: rest := by
  rw [update_eq_replaceFirst, replaceFirst_prefix n row pre (r1 :: rest) hpre]
  simp only [replaceFirst, if_pos hr1]

/-- C10 witness: a table with the header and two rows keyed "7" — the
upsert replaces the first and the duplicate survives. -/
theorem C10_witness :
    update_doentes_sheet ([HEADERS_DOENTES] ++ ["7", "x"] :: [["7", "y"]]) "7" ["7", "z"]
      = [HEADERS_DOENTES] ++ ["7", "z"] :: [["7", "y"]] :=
  C10_duplicate_rows [HEADERS_DOENTES] ["7", "x"] [["7", "y"]] "7" ["7", "z"]
    (by decide) (by decide)
